import Mathlib

set_option maxHeartbeats 1000000

/-! Verification of the voice-to-todo app's task pipeline and optimistic task
store, as implemented in `src/app/index.tsx` and the second app variant.

Timestamps are modelled as natural numbers (epoch milliseconds); the
`Date.now()` reading used for the generated id and the ISO strings written
into `created_at` / `updated_at` are draws from the same clock value `now`.
The remote persistence service (`blink.db.tasks`) and the transcription
service (`blink.ai.transcribeAudio`) are external collaborators: where a
claim only needs their success/failure they are oracles passed as arguments;
where a claim needs the remote store's contents (round-trip claims) the keyed
create/update/delete contract of the spec is modelled explicitly. -/

namespace VoiceTodo

/-- Task record, exactly the `Task` interface of the source: string id and
owner, numeric 0/1 flags for `completed` and `reminder_enabled`, optional
`description`, `deadline`, `reminder_time`, and two timestamps. -/
structure Task where
  id : String
  user_id : String
  title : String
  description : Option String
  completed : Nat
  deadline : Option String
  reminder_enabled : Nat
  reminder_time : Option String
  created_at : Nat
  updated_at : Nat
  deriving DecidableEq, Repr

/-- JavaScript `String.prototype.trim` applied by `transcribeAudio`: removes
leading and trailing whitespace, embedded as a kernel-computable function on
the string's character list. -/
def jsTrim (s : String) : String :=
  ⟨(((s.data.dropWhile Char.isWhitespace).reverse.dropWhile
      Char.isWhitespace).reverse)⟩

/-- Outcome of one run of the transcription-to-task pipeline, matching the
four user-visible endings of `transcribeAudio` / `createTaskFromTranscription`
(task created, create failed, "No speech detected", "Transcription failed"). -/
inductive PipelineOutcome where
  | taskCreated
  | createFailed
  | noSpeechDetected
  | transcriptionFailed
  deriving DecidableEq, Repr

/-- Draft record built by `createTaskFromTranscription` (and `addSampleTask`):
the id is the template string `task_${Date.now()}`, `completed = 0`,
`reminder_enabled = 0`, and both timestamps are the current clock value. -/
def mkNewTask (userId title : String) (now : Nat) : Task :=
  { id := "task_" ++ toString now
    user_id := userId
    title := title
    description := none
    completed := 0
    deadline := none
    reminder_enabled := 0
    reminder_time := none
    created_at := now
    updated_at := now }

/-- Function `createTaskFromTranscription`: builds the draft record, awaits
the remote `blink.db.tasks.create` (the oracle `remoteCreate`); on success it
prepends the record returned by the remote call — not the draft — to the local
list (`setTasks(prev => [newTask, ...prev])`); on failure the `catch` branch
leaves the local list untouched. -/
def createTaskFromTranscription (remoteCreate : Task → Option Task)
    (userId : String) (now : Nat) (transcription : String)
    (tasks : List Task) : PipelineOutcome × List Task :=
  match remoteCreate (mkNewTask userId transcription now) with
  | some newTask => (PipelineOutcome.taskCreated, newTask :: tasks)
  | none => (PipelineOutcome.createFailed, tasks)

/-- Function `transcribeAudio`: the remote transcription either throws
(`none`, landing in the `catch` branch) or yields `text`; the code then tests
`if (text.trim())` — a non-empty trimmed string creates a task from
`text.trim()`, an empty one alerts "No speech detected" and does nothing. -/
def transcribeAudio (remoteTranscribe : Option String)
    (remoteCreate : Task → Option Task) (userId : String) (now : Nat)
    (tasks : List Task) : PipelineOutcome × List Task :=
  match remoteTranscribe with
  | none => (PipelineOutcome.transcriptionFailed, tasks)
  | some text =>
      if jsTrim text = "" then (PipelineOutcome.noSpeechDetected, tasks)
      else createTaskFromTranscription remoteCreate userId now (jsTrim text) tasks

/-- Claim C1: for every recognized text whose trimmed value is non-empty, the
pipeline invokes task creation with title equal to the trimmed text,
`completed = 0`, and the freshly generated clock-based id, and the task
resulting from the remote call is placed first in the local ordered list. -/
theorem pipeline_creates_trimmed_task_first
    (remoteCreate : Task → Option Task) (userId text : String) (now : Nat)
    (tasks : List Task) (r : Task)
    (htext : jsTrim text ≠ "")
    (hremote : remoteCreate (mkNewTask userId (jsTrim text) now) = some r) :
    (mkNewTask userId (jsTrim text) now).title = jsTrim text ∧
    (mkNewTask userId (jsTrim text) now).completed = 0 ∧
    (mkNewTask userId (jsTrim text) now).id = "task_" ++ toString now ∧
    transcribeAudio (some text) remoteCreate userId now tasks
      = (PipelineOutcome.taskCreated, r :: tasks) := by
  refine ⟨rfl, rfl, rfl, ?_⟩
  simp [transcribeAudio, createTaskFromTranscription, htext, hremote]

/-- Witness for claim C1 at the recognized text "  buy milk " with an echoing
remote create. -/
theorem pipeline_creates_trimmed_task_first_witness :
    transcribeAudio (some "  buy milk ") Option.some "u1" 100 []
      = (PipelineOutcome.taskCreated, [mkNewTask "u1" "buy milk" 100]) :=
  (pipeline_creates_trimmed_task_first Option.some "u1" "  buy milk " 100 []
    (mkNewTask "u1" "buy milk" 100) (by decide) (by decide)).2.2.2

/-- Claim C2: recognized text consisting only of whitespace (including the
empty string) yields the NoSpeechDetected outcome, no task-creation call is
made (the result does not depend on the remote create oracle at all), and the
task collection is returned unchanged. -/
theorem whitespace_text_no_speech_no_mutation
    (text userId : String) (now : Nat) (tasks : List Task)
    (h : jsTrim text = "") :
    ∀ remoteCreate : Task → Option Task,
      transcribeAudio (some text) remoteCreate userId now tasks
        = (PipelineOutcome.noSpeechDetected, tasks) := by
  intro rc
  simp [transcribeAudio, h]

/-- Witness for claim C2 at the all-whitespace recognized text "   " over a
one-task collection. -/
theorem whitespace_text_no_speech_no_mutation_witness :
    transcribeAudio (some "   ") Option.some "u1" 200 [mkNewTask "u1" "a" 10]
      = (PipelineOutcome.noSpeechDetected, [mkNewTask "u1" "a" 10]) :=
  whitespace_text_no_speech_no_mutation "   " "u1" 200 [mkNewTask "u1" "a" 10]
    (by decide) Option.some

/-- Claim C3: task creation is atomic with respect to the local collection —
on remote success the prepended value is exactly the record returned by the
remote call (not the draft), on remote failure the local collection is
unchanged, and the earlier pipeline failures (transcription failure, no
speech detected) also leave the collection completely unchanged. -/
theorem create_atomic_local_collection
    (userId tr : String) (now : Nat) (tasks : List Task)
    (remoteCreate : Task → Option Task) :
    (∀ r : Task, remoteCreate (mkNewTask userId tr now) = some r →
        createTaskFromTranscription remoteCreate userId now tr tasks
          = (PipelineOutcome.taskCreated, r :: tasks)) ∧
    (remoteCreate (mkNewTask userId tr now) = none →
        createTaskFromTranscription remoteCreate userId now tr tasks
          = (PipelineOutcome.createFailed, tasks)) ∧
    (∀ rc : Task → Option Task,
        transcribeAudio none rc userId now tasks
          = (PipelineOutcome.transcriptionFailed, tasks)) ∧
    (∀ (rc : Task → Option Task) (text : String), jsTrim text = "" →
        transcribeAudio (some text) rc userId now tasks
          = (PipelineOutcome.noSpeechDetected, tasks)) := by
  refine ⟨fun r hr => ?_, fun hn => ?_, fun rc => rfl, fun rc text ht => ?_⟩
  · simp [createTaskFromTranscription, hr]
  · simp [createTaskFromTranscription, hn]
  · simp [transcribeAudio, ht]

/-- Witness for claim C3: the four branches exercised at concrete inputs —
successful remote create, failing remote create, failing transcription, and
whitespace-only recognized text. -/
theorem create_atomic_local_collection_witness :
    createTaskFromTranscription Option.some "u1" 100 "buy milk" []
      = (PipelineOutcome.taskCreated, [mkNewTask "u1" "buy milk" 100]) ∧
    createTaskFromTranscription (fun _ => none) "u1" 100 "buy milk" []
      = (PipelineOutcome.createFailed, []) ∧
    transcribeAudio none Option.some "u1" 100 []
      = (PipelineOutcome.transcriptionFailed, []) ∧
    transcribeAudio (some "   ") Option.some "u1" 100 []
      = (PipelineOutcome.noSpeechDetected, []) :=
  ⟨(create_atomic_local_collection "u1" "buy milk" 100 [] Option.some).1 _ rfl,
   (create_atomic_local_collection "u1" "buy milk" 100 [] (fun _ => none)).2.1 rfl,
   (create_atomic_local_collection "u1" "buy milk" 100 [] Option.some).2.2.1 Option.some,
   (create_atomic_local_collection "u1" "buy milk" 100 [] Option.some).2.2.2
      Option.some "   " (by decide)⟩

/-- Joint state of the local optimistic cache (the `tasks` React state) and
the remote persistence collection owned by `blink.db.tasks`. -/
structure StoreState where
  tasks : List Task
  remote : List Task
  deriving DecidableEq, Repr

/-- Modelled from the spec: the remote persistence service's `update(id,
patch)` operation (§6) applies the patch to the stored record whose id
matches, leaving every other record in place. -/
def remoteUpdate (taskId : String) (patch : Task → Task)
    (remote : List Task) : List Task :=
  remote.map fun t => if t.id = taskId then patch t else t

/-- The value `task.completed ? 0 : 1` computed by `toggleTaskCompletion`
(JS truthiness: any non-zero number is truthy). -/
def flipCompleted (c : Nat) : Nat :=
  if c ≠ 0 then 0 else 1

/-- Function `toggleTaskCompletion(task)`: computes `newCompleted`, awaits the
remote `update(task.id, { completed: newCompleted, updated_at: now })`; on
success the local list is re-mapped changing only `completed` on the records
whose id matches (the local patch does not touch `updated_at`); if the remote
update throws, the `catch` branch logs and leaves both collections
untouched. -/
def toggleTaskCompletion (task : Task) (now : Nat) (ok : Bool)
    (st : StoreState) : StoreState :=
  if ok then
    { remote := remoteUpdate task.id
        (fun t => { t with completed := flipCompleted task.completed,
                           updated_at := now }) st.remote
      tasks := st.tasks.map fun t =>
        if t.id = task.id then
          { t with completed := flipCompleted task.completed }
        else t }
  else st

/-- Function `deleteTask(taskId)`: awaits the remote delete (which removes the
keyed record, §6), then filters the local list; a failing remote call is
caught (console.error only, no user-visible error) and leaves the local list
untouched. -/
def deleteTask (taskId : String) (ok : Bool) (st : StoreState) : StoreState :=
  if ok then
    { remote := st.remote.filter fun t => t.id ≠ taskId
      tasks := st.tasks.filter fun t => t.id ≠ taskId }
  else st

/-- Function `saveTaskEdit`: with no task being edited it does nothing;
otherwise it awaits the remote `update(id, { title: editTitle, deadline:
editDeadline || null, updated_at: now })` — the empty deadline string is sent
as explicit absence — and on success re-maps the local list setting `title`
and `deadline` (the local patch stores the raw `editDeadline` string and does
not touch `updated_at`); a remote failure is caught and leaves both
collections untouched.  No validation of the title occurs anywhere on this
path. -/
def saveTaskEdit (editingTask : Option Task) (editTitle editDeadline : String)
    (now : Nat) (ok : Bool) (st : StoreState) : StoreState :=
  match editingTask with
  | none => st
  | some et =>
      if ok then
        { remote := remoteUpdate et.id
            (fun t => { t with title := editTitle,
                               deadline := if editDeadline = "" then none
                                           else some editDeadline,
                               updated_at := now }) st.remote
          tasks := st.tasks.map fun t =>
            if t.id = et.id then
              { t with title := editTitle, deadline := some editDeadline }
            else t }
      else st

/-- First record with the given id in a collection. -/
def findById (taskId : String) (l : List Task) : Option Task :=
  l.find? fun t => t.id = taskId

/-- Helper: a keyed patch-map moves through `findById` — if the first record
with the given id is `t`, then after patching exactly the matching records
the first record with that id is `g t`, provided `g` preserves ids. -/
theorem findById_map_patch (taskId : String) (g : Task → Task)
    (hg : ∀ u, (g u).id = u.id) (l : List Task) (t : Task)
    (h : findById taskId l = some t) :
    findById taskId (l.map fun u => if u.id = taskId then g u else u)
      = some (g t) := by
  induction l with
  | nil => simp [findById] at h
  | cons a l ih =>
      by_cases ha : a.id = taskId
      · rw [findById, List.find?_cons_of_pos l (by simpa using ha)] at h
        obtain rfl : a = t := by simpa using h
        rw [List.map_cons, if_pos ha, findById,
          List.find?_cons_of_pos _ (by simpa using (hg a).trans ha)]
      · rw [findById, List.find?_cons_of_neg l (by simpa using ha)] at h
        rw [List.map_cons, if_neg ha, findById,
          List.find?_cons_of_neg _ (by simpa using ha)]
        exact ih h

/-- Helper: flipping a 0/1 completion flag twice restores it. -/
theorem flipCompleted_flipCompleted {c : Nat} (hc : c = 0 ∨ c = 1) :
    flipCompleted (flipCompleted c) = c := by
  rcases hc with rfl | rfl <;> decide

/-- Helper: flipping a 0/1 completion flag changes it. -/
theorem flipCompleted_ne {c : Nat} (hc : c = 0 ∨ c = 1) :
    flipCompleted c ≠ c := by
  rcases hc with rfl | rfl <;> decide

/-- Counterexample to claim C4: toggling the task created at clock 10 does
not strictly increase the record's `updated_at` — the local cached record
keeps `updated_at = 10` even when toggled at clock 20 (the local optimistic
patch never touches it), and a toggle whose `Date.now()` reading falls in the
creation millisecond (clock 10) leaves even the remote record's `updated_at`
equal at 10. -/
theorem toggle_updatedAt_not_strictly_increased_counterexample :
    (mkNewTask "u" "a" 10).updated_at = 10 ∧
    ((findById "task_10"
        (toggleTaskCompletion (mkNewTask "u" "a" 10) 20 true
          ⟨[mkNewTask "u" "a" 10], [mkNewTask "u" "a" 10]⟩).tasks).map
      Task.updated_at) = some 10 ∧
    ((findById "task_10"
        (toggleTaskCompletion (mkNewTask "u" "a" 10) 10 true
          ⟨[mkNewTask "u" "a" 10], [mkNewTask "u" "a" 10]⟩).remote).map
      Task.updated_at) = some 10 := by
  decide

/-- Claim C4 amended: for a task present in the store (cached and remote
record both the tapped record `t`, whose completion flag is 0 or 1),
toggleTaskCompletion flips the completed flag exactly once per call and a
second call returns the cached record to exactly the original record;
`updated_at` is stamped only in the remote update, with the current clock
reading, so the remote record's `updated_at` strictly increases exactly when
the clock readings strictly advance past it (the hypotheses
`t.updated_at < n1` and `n1 < n2`), while the cached record's `updated_at` is
never changed — `st1.tasks` holds `t1`, which differs from `t` only in
`completed`. -/
theorem toggle_flips_once_twice_restores
    (st st1 st2 : StoreState) (t t1 : Task) (n1 n2 : Nat)
    (hLocal : findById t.id st.tasks = some t)
    (hRemote : findById t.id st.remote = some t)
    (hc : t.completed = 0 ∨ t.completed = 1)
    (hn1 : t.updated_at < n1) (hn2 : n1 < n2)
    (hst1 : st1 = toggleTaskCompletion t n1 true st)
    (ht1 : t1 = { t with completed := flipCompleted t.completed })
    (hst2 : st2 = toggleTaskCompletion t1 n2 true st1) :
    (findById t.id st1.tasks = some t1 ∧ t1.completed ≠ t.completed) ∧
    (findById t.id st1.remote
        = some { t with completed := flipCompleted t.completed,
                        updated_at := n1 } ∧
      t.updated_at < n1) ∧
    (findById t.id st2.tasks = some t ∧
      findById t.id st2.remote = some { t with updated_at := n2 } ∧
      n1 < n2) := by
  subst hst2 hst1 ht1
  have hflip : flipCompleted (flipCompleted t.completed) = t.completed :=
    flipCompleted_flipCompleted hc
  have h1t := findById_map_patch t.id
    (fun u => { u with completed := flipCompleted t.completed })
    (fun u => rfl) st.tasks t hLocal
  have h1r := findById_map_patch t.id
    (fun u => { u with completed := flipCompleted t.completed,
                       updated_at := n1 })
    (fun u => rfl) st.remote t hRemote
  have h2t := findById_map_patch t.id
    (fun u => { u with completed := flipCompleted (flipCompleted t.completed) })
    (fun u => rfl) _ _ h1t
  have h2r := findById_map_patch t.id
    (fun u => { u with completed := flipCompleted (flipCompleted t.completed),
                       updated_at := n2 })
    (fun u => rfl) _ _ h1r
  refine ⟨⟨h1t, flipCompleted_ne hc⟩, ⟨h1r, hn1⟩, ?_, ?_, hn2⟩
  · exact h2t.trans (by rw [hflip])
  · exact h2r.trans (by rw [hflip])

/-- Witness for claim C4: the task created at clock 10 is toggled at clock 20
and toggled back at clock 30; the cached record returns to the original. -/
theorem toggle_flips_once_twice_restores_witness :
    (mkNewTask "u" "a" 10).completed = 0 ∧
    findById "task_10"
        (toggleTaskCompletion { mkNewTask "u" "a" 10 with completed := 1 } 30
          true
          (toggleTaskCompletion (mkNewTask "u" "a" 10) 20 true
            ⟨[mkNewTask "u" "a" 10], [mkNewTask "u" "a" 10]⟩)).tasks
      = some (mkNewTask "u" "a" 10) := by
  have h := toggle_flips_once_twice_restores
    ⟨[mkNewTask "u" "a" 10], [mkNewTask "u" "a" 10]⟩ _ _ (mkNewTask "u" "a" 10)
    _ 20 30 (by decide) (by decide) (Or.inl rfl) (by decide) (by decide)
    rfl rfl rfl
  exact ⟨rfl, h.2.2.1⟩

/-- Claim C10: frame property of the local update applied by
toggleTaskCompletion — position by position, a cached record whose id differs
from the toggled task's id is unchanged, and a record whose id matches is
changed only in its `completed` field; in particular the cache's length and
order are unchanged and `updated_at`, `title`, `deadline`, `created_at` of
every record are untouched locally. -/
theorem toggle_local_frame (task : Task) (now : Nat) (st : StoreState) :
    (toggleTaskCompletion task now true st).tasks.length = st.tasks.length ∧
    ∀ i : Nat,
      (toggleTaskCompletion task now true st).tasks[i]?
        = (st.tasks[i]?).map fun u =>
            if u.id = task.id then
              { u with completed := flipCompleted task.completed }
            else u := by
  refine ⟨by simp [toggleTaskCompletion], fun i => ?_⟩
  simp [toggleTaskCompletion, List.getElem?_map]

/-- Claim C9: deleteTask removes every record with the given id from the
local collection, and a second deleteTask with the same id — whether its
remote call succeeds or is caught after failing — is a no-op on the whole
store state. -/
theorem delete_then_delete_noop (taskId : String) (st : StoreState) :
    ((deleteTask taskId true st).tasks.all fun t => t.id ≠ taskId) = true ∧
    ∀ ok : Bool,
      deleteTask taskId ok (deleteTask taskId true st)
        = deleteTask taskId true st := by
  constructor
  · simp [deleteTask, List.all_eq_true, List.mem_filter]
  · intro ok
    cases ok with
    | false => rfl
    | true => simp [deleteTask, List.filter_filter]

/-- Counterexample to claim C5: saveTaskEdit performs no title validation —
saving an edit whose title is the empty string over the single task
"buy milk" changes the store content instead of rejecting the edit and
leaving the store unchanged. -/
theorem edit_empty_title_changes_store_counterexample :
    saveTaskEdit (some (mkNewTask "u1" "buy milk" 10)) "" "" 20 true
        ⟨[mkNewTask "u1" "buy milk" 10], [mkNewTask "u1" "buy milk" 10]⟩
      ≠ ⟨[mkNewTask "u1" "buy milk" 10], [mkNewTask "u1" "buy milk" 10]⟩ := by
  decide

/-- Claim C5 amended: there is no ValidationFailed rejection in the code —
saveTaskEdit applies an empty-title edit like any other edit: the matching
cached record's title becomes the empty string (its deadline set to the raw
edit string), and the remote record's title likewise, with the empty deadline
sent as explicit absence and `updated_at` stamped. -/
theorem edit_empty_title_applied
    (st : StoreState) (et : Task) (d : String) (now : Nat)
    (hL : findById et.id st.tasks = some et)
    (hR : findById et.id st.remote = some et) :
    findById et.id (saveTaskEdit (some et) "" d now true st).tasks
      = some { et with title := "", deadline := some d } ∧
    findById et.id (saveTaskEdit (some et) "" d now true st).remote
      = some { et with
               title := ""
               deadline := if d = "" then none else some d
               updated_at := now } :=
  ⟨findById_map_patch et.id
      (fun u => { u with title := "", deadline := some d })
      (fun _ => rfl) st.tasks et hL,
   findById_map_patch et.id
      (fun u => { u with
                  title := ""
                  deadline := if d = "" then none else some d
                  updated_at := now })
      (fun _ => rfl) st.remote et hR⟩

/-- Witness for the amended claim C5 at the single task "buy milk". -/
theorem edit_empty_title_applied_witness :
    findById "task_10"
        (saveTaskEdit (some (mkNewTask "u1" "buy milk" 10)) "" "" 20 true
          ⟨[mkNewTask "u1" "buy milk" 10], [mkNewTask "u1" "buy milk" 10]⟩).tasks
      = some { mkNewTask "u1" "buy milk" 10 with
               title := ""
               deadline := some "" } := by
  have h := edit_empty_title_applied
    ⟨[mkNewTask "u1" "buy milk" 10], [mkNewTask "u1" "buy milk" 10]⟩
    (mkNewTask "u1" "buy milk" 10) "" 20 (by decide) (by decide)
  exact h.1

/-- Recording controller state: the `isRecording` and `isTranscribing` flags,
the elapsed-seconds counter `recordingDuration`, whether a backend recording
session is held (the `recording` ref / active MediaRecorder), and whether the
1-second interval timer is running. -/
structure RecState where
  isRecording : Bool
  isTranscribing : Bool
  recordingDuration : Nat
  hasSession : Bool
  timerActive : Bool
  deriving DecidableEq, Repr

/-- Effect of a `startRecording` run: when permission is granted a backend
session is created, `isRecording` becomes true, the duration counter is reset
to 0 and the interval timer is started; when permission is denied the
function alerts and returns with no state change. -/
def startRecordingStep (granted : Bool) (s : RecState) : RecState :=
  if granted then
    { s with
      hasSession := true
      isRecording := true
      recordingDuration := 0
      timerActive := true }
  else s

/-- Effect of `stopRecording`: `isRecording := false`,
`isTranscribing := true` while the payload is transcribed, the interval timer
is cleared and the backend session finalized and released; the duration
counter is not touched. -/
def stopRecordingStep (s : RecState) : RecState :=
  { s with
    isRecording := false
    isTranscribing := true
    hasSession := false
    timerActive := false }

/-- The action the record control dispatches on a press, from the JSX:
`onPress={isRecording ? stopRecording : startRecording}` with
`disabled={isTranscribing}` — a press while transcribing fires nothing. -/
inductive PressAction where
  | startPress
  | stopPress
  | disabledPress
  deriving DecidableEq, Repr

/-- Which handler a press of the record control reaches. -/
def pressAction (s : RecState) : PressAction :=
  if s.isTranscribing then PressAction.disabledPress
  else if s.isRecording then PressAction.stopPress
  else PressAction.startPress

/-- One press of the record control applied to the controller state. -/
def applyPress (granted : Bool) (s : RecState) : RecState :=
  match pressAction s with
  | PressAction.disabledPress => s
  | PressAction.stopPress => stopRecordingStep s
  | PressAction.startPress => startRecordingStep granted s

/-- Claim C7: while the controller is Recording or Transcribing, no press of
the record control can dispatch the start action — so no second backend
session is opened and no timer is restarted — and the duration counter is
never reset by a press in those states; while Transcribing the control is
disabled, so every sequence of presses leaves the state exactly unchanged
(an ignored no-op, not an error). -/
theorem start_noop_while_recording_or_transcribing
    (s : RecState) (granted : Bool)
    (h : s.isRecording = true ∨ s.isTranscribing = true) :
    pressAction s ≠ PressAction.startPress ∧
    (applyPress granted s).recordingDuration = s.recordingDuration ∧
    (s.isTranscribing = true →
      ∀ n : Nat, (fun x => applyPress granted x)^[n] s = s) := by
  refine ⟨?_, ?_, fun ht n => ?_⟩
  · rcases h with hr | ht
    · by_cases ht : s.isTranscribing = true <;>
        simp [pressAction, hr, ht]
    · simp [pressAction, ht]
  · rcases h with hr | ht
    · by_cases ht : s.isTranscribing = true <;>
        simp [applyPress, pressAction, stopRecordingStep, hr, ht]
    · simp [applyPress, pressAction, ht]
  · exact Function.iterate_fixed (by simp [applyPress, pressAction, ht]) n

/-- Witness for claim C7: three consecutive presses while transcribing leave
the state at duration 7 exactly unchanged. -/
theorem start_noop_while_recording_or_transcribing_witness :
    pressAction ⟨false, true, 7, false, false⟩ ≠ PressAction.startPress ∧
    (applyPress true ⟨false, true, 7, false, false⟩).recordingDuration = 7 ∧
    (fun x => applyPress true x)^[3] ⟨false, true, 7, false, false⟩
      = ⟨false, true, 7, false, false⟩ := by
  have h := start_noop_while_recording_or_transcribing
    ⟨false, true, 7, false, false⟩ true (Or.inr rfl)
  exact ⟨h.1, h.2.1, h.2.2 rfl 3⟩

/-- Decimal digit characters of a natural number, most significant first: a
fuel-free reference for the `Nat.toDigitsCore` computation behind the
`task_${Date.now()}` id template. -/
def decDigits (n : Nat) : List Char :=
  if n < 10 then [Nat.digitChar n]
  else decDigits (n / 10) ++ [Nat.digitChar (n % 10)]
decreasing_by exact Nat.div_lt_self (by omega) (by omega)

/-- Unfolding of `decDigits` on a single digit. -/
theorem decDigits_lt {n : Nat} (h : n < 10) :
    decDigits n = [Nat.digitChar n] := by
  rw [decDigits, if_pos h]

/-- Unfolding of `decDigits` on a multi-digit number. -/
theorem decDigits_ge {n : Nat} (h : ¬ n < 10) :
    decDigits n = decDigits (n / 10) ++ [Nat.digitChar (n % 10)] := by
  rw [decDigits, if_neg h]

/-- Helper: `Nat.toDigitsCore` with enough fuel computes `decDigits`. -/
theorem toDigitsCore_eq_decDigits :
    ∀ (f n : Nat) (ds : List Char), n < f →
      Nat.toDigitsCore 10 f n ds = decDigits n ++ ds := by
  intro f
  induction f with
  | zero => intro n ds h; omega
  | succ f ih =>
      intro n ds h
      by_cases hn : n / 10 = 0
      · have hlt : n < 10 := by omega
        rw [Nat.toDigitsCore]
        simp only [hn, if_pos rfl]
        rw [decDigits_lt hlt, Nat.mod_eq_of_lt hlt]
        rfl
      · have hge : ¬ n < 10 := by
          intro hlt
          exact hn (Nat.div_eq_of_lt hlt)
        have hdiv : n / 10 < f := by
          have h1 : n / 10 < n := Nat.div_lt_self (by omega) (by omega)
          omega
        rw [Nat.toDigitsCore]
        simp only [if_neg hn]
        rw [ih (n / 10) (Nat.digitChar (n % 10) :: ds) hdiv]
        rw [decDigits_ge hge, List.append_assoc]
        rfl

/-- Numeric value read back from a digit-character list (accumulator form). -/
def decValAux (a : Nat) (ds : List Char) : Nat :=
  ds.foldl (fun acc c => 10 * acc + (c.toNat - 48)) a

/-- Helper: reading a digit character back gives the digit. -/
theorem digitChar_toNat_sub {n : Nat} (h : n < 10) :
    (Nat.digitChar n).toNat - 48 = n := by
  have hall : ∀ m : Nat, m < 10 → (Nat.digitChar m).toNat - 48 = m := by decide
  exact hall n h

/-- Helper: `decValAux` recovers the number from its decimal digits. -/
theorem decValAux_decDigits (n : Nat) :
    ∀ a : Nat, decValAux a (decDigits n)
      = a * 10 ^ (decDigits n).length + n := by
  induction n using Nat.strong_induction_on with
  | _ n ih =>
      intro a
      by_cases h : n < 10
      · rw [decDigits_lt h]
        simp [decValAux, digitChar_toNat_sub h]
        ring
      · have hd : n / 10 < n := Nat.div_lt_self (by omega) (by omega)
        rw [decDigits_ge h, decValAux, List.foldl_append]
        have hmod : n % 10 < 10 := Nat.mod_lt n (by omega)
        have hinner := ih (n / 10) hd a
        rw [decValAux] at hinner
        simp only [List.foldl_cons, List.foldl_nil, hinner,
          digitChar_toNat_sub hmod, List.length_append, List.length_cons,
          List.length_nil]
        have hdm : 10 * (n / 10) + n % 10 = n := Nat.div_add_mod n 10
        ring_nf
        omega

/-- Helper: decimal digit lists determine the number. -/
theorem decDigits_injective : Function.Injective decDigits := by
  intro m n h
  have hm := decValAux_decDigits m 0
  have hn := decValAux_decDigits n 0
  rw [h] at hm
  rw [hm] at hn
  omega

/-- Helper: `Nat.repr` produces exactly the decimal digit characters. -/
theorem repr_data_eq_decDigits (n : Nat) :
    (Nat.repr n).data = decDigits n := by
  show (Nat.toDigits 10 n).asString.data = decDigits n
  rw [Nat.toDigits, toDigitsCore_eq_decDigits (n + 1) n [] (Nat.lt_succ_self n),
    List.append_nil]
  rfl

/-- Counterexample to claim C8: two distinct create operations (different
titles) whose `Date.now()` readings fall in the same millisecond generate the
same id `task_100`, so the local collection holds two records with equal
ids. -/
theorem duplicate_id_same_millisecond_counterexample :
    (mkNewTask "u1" "buy milk" 100).id = (mkNewTask "u1" "call dentist" 100).id ∧
    ¬ (((createTaskFromTranscription Option.some "u1" 100 "call dentist"
          (createTaskFromTranscription Option.some "u1" 100 "buy milk" []).2).2).map
        Task.id).Nodup := by
  decide

/-- Claim C8 amended: ids generated by two create operations (voice-pipeline
or sample-task, any owners and titles) differ whenever the two `Date.now()`
readings differ; only creates falling in the same millisecond collide. -/
theorem create_ids_differ_of_distinct_times
    (u1 t1 u2 t2 : String) (n1 n2 : Nat) (h : n1 ≠ n2) :
    (mkNewTask u1 t1 n1).id ≠ (mkNewTask u2 t2 n2).id := by
  intro hid
  apply h
  have hdata : ("task_" ++ toString n1).data = ("task_" ++ toString n2).data :=
    congrArg String.data hid
  have happ : "task_".data ++ (Nat.repr n1).data
      = "task_".data ++ (Nat.repr n2).data := hdata
  have hrepr : (Nat.repr n1).data = (Nat.repr n2).data :=
    List.append_cancel_left happ
  rw [repr_data_eq_decDigits, repr_data_eq_decDigits] at hrepr
  exact decDigits_injective hrepr

/-- Witness for the amended claim C8 at clock readings 100 and 101. -/
theorem create_ids_differ_of_distinct_times_witness :
    (mkNewTask "u1" "buy milk" 100).id ≠ (mkNewTask "u2" "walk dog" 101).id :=
  create_ids_differ_of_distinct_times "u1" "buy milk" "u2" "walk dog" 100 101
    (by decide)

/-- Modelled from the spec: the remote persistence `create(record)` of §6
stores the record and returns it; `createTask` is the creation path
(`blink.db.tasks.create` then `setTasks(prev => [newTask, ...prev])`) with
both collections kept explicit and the remote write succeeding. -/
def createTask (userId title : String) (now : Nat) (st : StoreState) :
    StoreState :=
  { remote := mkNewTask userId title now :: st.remote
    tasks := mkNewTask userId title now :: st.tasks }

/-- Insertion of a record into a list already ordered by `created_at`
descending. -/
def insertByCreated (t : Task) : List Task → List Task
  | [] => [t]
  | u :: us =>
      if u.created_at ≤ t.created_at then t :: u :: us
      else u :: insertByCreated t us

/-- Modelled from the spec: `loadTasks` fetches the owner's records from
remote persistence ordered by `created_at` descending
(`orderBy: { created_at: 'desc' }`) and replaces the local cache wholesale;
the ordered fetch is an insertion sort of the remote collection. -/
def listTasks (remote : List Task) : List Task :=
  match remote with
  | [] => []
  | t :: ts => insertByCreated t (listTasks ts)

/-- One user-level store operation: create a task (voice pipeline or sample
button), toggle a cached task's completion, save an edit of a cached task, or
delete a task. -/
inductive StoreOp where
  | createOp (title : String)
  | toggleOp (taskId : String)
  | editOp (taskId newTitle newDeadline : String)
  | deleteOp (taskId : String)
  deriving DecidableEq, Repr

/-- Apply one operation at clock reading `now` with the remote write
succeeding; toggle and edit act on the cached record with the given id — the
UI hands them the rendered item — and are no-ops when no such record is
cached, since the UI can only dispatch on rendered records. -/
def applyOp (userId : String) (op : StoreOp) (now : Nat)
    (st : StoreState) : StoreState :=
  match op with
  | StoreOp.createOp title => createTask userId title now st
  | StoreOp.toggleOp taskId =>
      match findById taskId st.tasks with
      | some t => toggleTaskCompletion t now true st
      | none => st
  | StoreOp.editOp taskId newTitle newDeadline =>
      match findById taskId st.tasks with
      | some t => saveTaskEdit (some t) newTitle newDeadline now true st
      | none => st
  | StoreOp.deleteOp taskId => deleteTask taskId true st

/-- Run a list of clock-stamped operations in order. -/
def runOps (userId : String) : List (StoreOp × Nat) → StoreState → StoreState
  | [], st => st
  | (op, now) :: rest, st => runOps userId rest (applyOp userId op now st)

/-- Clock discipline of a run: each operation's `Date.now()` reading is at
least the given bound and the readings strictly increase along the run. -/
def timesOK : List (StoreOp × Nat) → Nat → Bool
  | [], _ => true
  | (_, now) :: rest, b => b ≤ now && timesOK rest (now + 1)

/-- The task fields on which local cache and remote store never diverge:
every field except `updated_at` (stamped only remotely by toggle and edit)
and `deadline` (stored locally as the raw edit string but remotely as
explicit absence when empty). -/
structure TaskCore where
  id : String
  user_id : String
  title : String
  description : Option String
  completed : Nat
  reminder_enabled : Nat
  reminder_time : Option String
  created_at : Nat
  deriving DecidableEq, Repr

/-- Projection of a task record to its stable fields. -/
def stablePart (t : Task) : TaskCore :=
  { id := t.id
    user_id := t.user_id
    title := t.title
    description := t.description
    completed := t.completed
    reminder_enabled := t.reminder_enabled
    reminder_time := t.reminder_time
    created_at := t.created_at }

/-- Invariant carried along a run: local cache and remote store agree on the
stable fields record by record, the remote store is ordered by `created_at`
strictly descending, and every stored `created_at` is below the bound. -/
def StoreInv (st : StoreState) (b : Nat) : Prop :=
  st.tasks.map stablePart = st.remote.map stablePart ∧
  st.remote.Pairwise (fun a c => c.created_at < a.created_at) ∧
  ∀ t ∈ st.remote, t.created_at < b

/-- Helper: mapping after a filter whose predicate factors through the map. -/
theorem map_filter_comp {α β : Type} (f : α → β) (q : β → Bool) :
    ∀ l : List α, (l.filter fun a => q (f a)).map f = (l.map f).filter q := by
  intro l
  induction l with
  | nil => rfl
  | cons a l ih =>
      rw [List.map_cons, List.filter_cons, List.filter_cons]
      by_cases h : q (f a) = true
      · rw [if_pos h, if_pos h, List.map_cons, ih]
      · rw [if_neg h, if_neg h, ih]

/-- Helper: stable-field agreement survives filtering by a predicate that
only looks at stable fields. -/
theorem map_stable_filter_eq (p : Task → Bool) (q : TaskCore → Bool)
    (hpq : ∀ t, p t = q (stablePart t)) {l1 l2 : List Task}
    (h : l1.map stablePart = l2.map stablePart) :
    (l1.filter p).map stablePart = (l2.filter p).map stablePart := by
  have hp : p = fun t => q (stablePart t) := funext hpq
  rw [hp, map_filter_comp, map_filter_comp, h]

/-- Helper: stable-field agreement survives a pair of keyed patches whose
stable effect is the same function of the stable fields. -/
theorem map_stable_map_eq (g1 g2 : Task → Task) (f : TaskCore → TaskCore)
    (h1 : ∀ t, stablePart (g1 t) = f (stablePart t))
    (h2 : ∀ t, stablePart (g2 t) = f (stablePart t))
    {l1 l2 : List Task} (h : l1.map stablePart = l2.map stablePart) :
    (l1.map g1).map stablePart = (l2.map g2).map stablePart := by
  rw [List.map_map, List.map_map,
    show stablePart ∘ g1 = f ∘ stablePart from funext h1,
    show stablePart ∘ g2 = f ∘ stablePart from funext h2,
    ← List.map_map, ← List.map_map, h]

/-- Helper: descending `created_at` order survives a patch map that does not
touch `created_at`. -/
theorem pairwise_created_map (g : Task → Task)
    (hg : ∀ t, (g t).created_at = t.created_at) {l : List Task}
    (h : l.Pairwise fun a c => c.created_at < a.created_at) :
    (l.map g).Pairwise fun a c => c.created_at < a.created_at := by
  rw [List.pairwise_map]
  refine h.imp ?_
  intro a c hac
  rw [hg, hg]
  exact hac

/-- Helper: a `created_at` bound survives a patch map that does not touch
`created_at`. -/
theorem bound_created_map (g : Task → Task)
    (hg : ∀ t, (g t).created_at = t.created_at) {l : List Task} {b : Nat}
    (h : ∀ t ∈ l, t.created_at < b) :
    ∀ t ∈ l.map g, t.created_at < b := by
  intro t ht
  rcases List.mem_map.mp ht with ⟨u, hu, rfl⟩
  rw [hg]
  exact h u hu

/-- Helper: the invariant is monotone in the clock bound. -/
theorem StoreInv_mono {st : StoreState} {b b2 : Nat}
    (h : StoreInv st b) (hb : b ≤ b2) : StoreInv st b2 :=
  ⟨h.1, h.2.1, fun t ht => lt_of_lt_of_le (h.2.2 t ht) hb⟩

/-- Helper: one operation at a fresh clock reading preserves the run
invariant. -/
theorem StoreInv_applyOp (userId : String) (op : StoreOp) (now b : Nat)
    (st : StoreState) (hb : b ≤ now) (hInv : StoreInv st b) :
    StoreInv (applyOp userId op now st) (now + 1) := by
  obtain ⟨hmaps, hpair, hbound⟩ := hInv
  cases op with
  | createOp title =>
      refine ⟨?_, ?_, ?_⟩
      · show (mkNewTask userId title now :: st.tasks).map stablePart
          = (mkNewTask userId title now :: st.remote).map stablePart
        rw [List.map_cons, List.map_cons, hmaps]
      · show (mkNewTask userId title now :: st.remote).Pairwise _
        exact List.pairwise_cons.mpr
          ⟨fun c hc => lt_of_lt_of_le (hbound c hc) hb, hpair⟩
      · intro t ht
        rcases List.mem_cons.mp ht with rfl | hmem
        · exact Nat.lt_succ_self now
        · exact lt_of_lt_of_le (hbound t hmem) (Nat.le_succ_of_le hb)
  | toggleOp taskId =>
      cases hf : findById taskId st.tasks with
      | none =>
          simp only [applyOp, hf]
          exact StoreInv_mono ⟨hmaps, hpair, hbound⟩ (by omega)
      | some t =>
          simp only [applyOp, hf]
          refine ⟨?_, ?_, ?_⟩
          · exact map_stable_map_eq
              (fun u => if u.id = t.id then
                { u with completed := flipCompleted t.completed } else u)
              (fun u => if u.id = t.id then
                { u with completed := flipCompleted t.completed,
                         updated_at := now } else u)
              (fun c => if c.id = t.id then
                { c with completed := flipCompleted t.completed } else c)
              (fun u => by by_cases hu : u.id = t.id <;> simp [stablePart, hu])
              (fun u => by by_cases hu : u.id = t.id <;> simp [stablePart, hu])
              hmaps
          · exact pairwise_created_map _
              (fun u => by by_cases hu : u.id = t.id <;> simp [hu]) hpair
          · exact bound_created_map _
              (fun u => by by_cases hu : u.id = t.id <;> simp [hu])
              (fun u hu => lt_of_lt_of_le (hbound u hu) (by omega))
  | editOp taskId newTitle newDeadline =>
      cases hf : findById taskId st.tasks with
      | none =>
          simp only [applyOp, hf]
          exact StoreInv_mono ⟨hmaps, hpair, hbound⟩ (by omega)
      | some t =>
          simp only [applyOp, hf]
          refine ⟨?_, ?_, ?_⟩
          · exact map_stable_map_eq
              (fun u => if u.id = t.id then
                { u with title := newTitle,
                         deadline := some newDeadline } else u)
              (fun u => if u.id = t.id then
                { u with title := newTitle,
                         deadline := if newDeadline = "" then none
                                     else some newDeadline,
                         updated_at := now } else u)
              (fun c => if c.id = t.id then { c with title := newTitle } else c)
              (fun u => by by_cases hu : u.id = t.id <;> simp [stablePart, hu])
              (fun u => by by_cases hu : u.id = t.id <;> simp [stablePart, hu])
              hmaps
          · exact pairwise_created_map _
              (fun u => by by_cases hu : u.id = t.id <;> simp [hu]) hpair
          · exact bound_created_map _
              (fun u => by by_cases hu : u.id = t.id <;> simp [hu])
              (fun u hu => lt_of_lt_of_le (hbound u hu) (by omega))
  | deleteOp taskId =>
      refine ⟨?_, ?_, ?_⟩
      · exact map_stable_filter_eq
          (fun u => decide (u.id ≠ taskId))
          (fun c => decide (c.id ≠ taskId))
          (fun u => rfl) hmaps
      · exact List.Pairwise.sublist (List.filter_sublist _) hpair
      · intro u hu
        exact lt_of_lt_of_le (hbound u (List.mem_filter.mp hu).1) (by omega)

/-- Helper: a whole run under the clock discipline preserves the invariant
at some final bound. -/
theorem StoreInv_runOps (userId : String) :
    ∀ (ops : List (StoreOp × Nat)) (st : StoreState) (b : Nat),
      timesOK ops b = true → StoreInv st b →
      ∃ b2, StoreInv (runOps userId ops st) b2 := by
  intro ops
  induction ops with
  | nil => exact fun st b _ h => ⟨b, h⟩
  | cons p rest ih =>
      obtain ⟨op, now⟩ := p
      intro st b htimes hinv
      rw [timesOK, Bool.and_eq_true, decide_eq_true_eq] at htimes
      exact ih (applyOp userId op now st) (now + 1) htimes.2
        (StoreInv_applyOp userId op now b st htimes.1 hinv)

/-- Helper: the ordered fetch returns a strictly `created_at`-descending
collection unchanged. -/
theorem listTasks_eq_of_sorted (l : List Task)
    (h : l.Pairwise fun a c => c.created_at < a.created_at) :
    listTasks l = l := by
  induction l with
  | nil => rfl
  | cons t ts ih =>
      obtain ⟨hhead, htail⟩ := List.pairwise_cons.mp h
      rw [listTasks, ih htail]
      cases ts with
      | nil => rfl
      | cons u us =>
          rw [insertByCreated,
            if_pos (le_of_lt (hhead u (List.mem_cons_self u us)))]

/-- Counterexample to claim C6: create "buy milk" at clock 10 and toggle it
at clock 20, every remote write succeeding — the list() fetch returns the
remote record with `updated_at = 20` while the local optimistic cache still
holds `updated_at = 10`, so the fetch does not reproduce the cache
field-for-field. -/
theorem roundtrip_counterexample :
    listTasks (runOps "u1" [(StoreOp.createOp "buy milk", 10),
        (StoreOp.toggleOp "task_10", 20)] ⟨[], []⟩).remote
      ≠ (runOps "u1" [(StoreOp.createOp "buy milk", 10),
        (StoreOp.toggleOp "task_10", 20)] ⟨[], []⟩).tasks := by
  decide

/-- Claim C6 amended: after any sequence of create/toggle/edit/delete
operations with every remote write succeeding and strictly increasing clock
readings, starting from the empty synced store, the list() fetch returns the
remote records in exactly the cache's order and agreeing with the cached
records on every stable field (id, owner, title, description, completed,
reminder fields, created_at) — field-for-field equality holds except for
`updated_at` (stamped only remotely by toggle/edit) and a cleared deadline's
representation. -/
theorem roundtrip_reproduces_stable_fields
    (userId : String) (ops : List (StoreOp × Nat))
    (h : timesOK ops 0 = true) :
    (listTasks (runOps userId ops ⟨[], []⟩).remote).map stablePart
      = ((runOps userId ops ⟨[], []⟩).tasks).map stablePart := by
  obtain ⟨b2, hmaps, hpair, _⟩ := StoreInv_runOps userId ops ⟨[], []⟩ 0 h
    ⟨rfl, List.Pairwise.nil, fun t ht => absurd ht (List.not_mem_nil t)⟩
  rw [listTasks_eq_of_sorted _ hpair]
  exact hmaps.symm

/-- Witness for the amended claim C6 on a four-operation run: create at 10,
toggle at 20, edit clearing the deadline at 30, create at 40. -/
theorem roundtrip_reproduces_stable_fields_witness :
    (listTasks (runOps "u1" [(StoreOp.createOp "buy milk", 10),
        (StoreOp.toggleOp "task_10", 20),
        (StoreOp.editOp "task_10" "buy oat milk" "", 30),
        (StoreOp.createOp "walk dog", 40)] ⟨[], []⟩).remote).map stablePart
      = ((runOps "u1" [(StoreOp.createOp "buy milk", 10),
        (StoreOp.toggleOp "task_10", 20),
        (StoreOp.editOp "task_10" "buy oat milk" "", 30),
        (StoreOp.createOp "walk dog", 40)] ⟨[], []⟩).tasks).map stablePart :=
  roundtrip_reproduces_stable_fields "u1"
    [(StoreOp.createOp "buy milk", 10), (StoreOp.toggleOp "task_10", 20),
     (StoreOp.editOp "task_10" "buy oat milk" "", 30),
     (StoreOp.createOp "walk dog", 40)] (by decide)

end VoiceTodo
